import Mathlib

/-
Shallow embedding of the spectral-index engine of the heritage-site
monitoring dashboard:
  - src/gee concept/utils/gee_utils.py   (HeritageMonitor: collection query,
    index compositor, band-algebra evaluator, region statistics)
  - src/gee concept/config/settings.py   (INDICES_CONFIG catalog)
  - src/gee concept/utils/db_utils.py    (cache key hash)

The repository drives Google Earth Engine, whose raster primitives
(select, normalizedDifference, add/subtract/multiply/divide, addBands,
expression, reduceRegion, filterBounds/filterDate/filter) are external
library code not contained in the repository.  Those primitives are
modelled from the spec's description of their numeric semantics; each
such definition carries a doc comment starting "Modelled from the spec".
Everything else is translated directly from the Python source.
-/

/-- Failure kinds of the band-algebra evaluator: a referenced band absent
from the image, a free-expression variable unbound, or a missing required
dictionary key in a custom-index record (Python KeyError).  All are
Python exceptions at the source level, hence values of this type in the
embedding. -/
inductive EEError where
  | unavailableBand
  | malformedExpression
  | keyError
deriving DecidableEq

/-- A raster band surface: a rational sample per pixel id; `none` is a
masked / undefined (not-a-number) pixel. -/
abbrev Pix : Type := Nat → Option ℚ

/-- Modelled from the spec: Earth Engine pixelwise addition; an undefined
operand makes the result pixel undefined. -/
def Pix.add (x y : Pix) : Pix := fun p => do
  let a ← x p
  let b ← y p
  pure (a + b)

/-- Modelled from the spec: Earth Engine pixelwise subtraction. -/
def Pix.subtract (x y : Pix) : Pix := fun p => do
  let a ← x p
  let b ← y p
  pure (a - b)

/-- Modelled from the spec: Earth Engine pixelwise multiplication. -/
def Pix.multiply (x y : Pix) : Pix := fun p => do
  let a ← x p
  let b ← y p
  pure (a * b)

/-- Modelled from the spec: Earth Engine pixelwise division; "division by
zero must not crash the evaluator; it must propagate as undefined value
at the pixel level", so a zero denominator yields an undefined pixel. -/
def Pix.divide (x y : Pix) : Pix := fun p => do
  let a ← x p
  let b ← y p
  if b = 0 then none else pure (a / b)

/-- Modelled from the spec: addition of a scalar constant (e.g. `.add(1)`
in the EVI denominator). -/
def Pix.addK (x : Pix) (c : ℚ) : Pix := fun p => do
  let a ← x p
  pure (a + c)

/-- Modelled from the spec: multiplication by a scalar constant. -/
def Pix.multiplyK (x : Pix) (c : ℚ) : Pix := fun p => do
  let a ← x p
  pure (a * c)

/-- Modelled from the spec: division by a scalar constant, undefined on a
zero constant like the pixelwise case. -/
def Pix.divideK (x : Pix) (c : ℚ) : Pix := fun p => do
  let a ← x p
  if c = 0 then none else pure (a / c)

/-- One named band of an image. -/
structure Band where
  name : String
  pix : Pix

/-- An image: an ordered list of named bands (the engine never reads any
other image state for the claims at hand). -/
structure Image where
  bands : List Band

/-- Modelled from the spec: `image.select(b)` yields the band named `b`
and fails with `UnavailableBand` when the image has no such band. -/
def Image.select (img : Image) (b : String) : Except EEError Pix :=
  match img.bands.find? (fun bd => bd.name = b) with
  | some bd => .ok bd.pix
  | none => .error .unavailableBand

/-- Renaming attaches a band name to a raster surface (`.rename(name)` on
every evaluator result). -/
def Pix.rename (x : Pix) (name : String) : Band := ⟨name, x⟩

/-- Pixelwise normalized difference (U − V) / (U + V), undefined where
the denominator is zero or an operand is undefined. -/
def ndPix (x y : Pix) : Pix := fun p => do
  let u ← x p
  let v ← y p
  if u + v = 0 then none else pure ((u - v) / (u + v))

/-- Modelled from the spec: `image.normalizedDifference([a, b])` computes
(A − B) / (A + B) pixelwise via `ndPix` and fails when a referenced band
is absent. -/
def Image.normalizedDifference (img : Image) (a b : String) :
    Except EEError Pix := do
  let x ← img.select a
  let y ← img.select b
  pure (ndPix x y)

/-- Modelled from the spec: adding one band; "adding a band with a name
collision overwrites the prior one", otherwise the band is appended. -/
def Image.addBand (img : Image) (b : Band) : Image :=
  if img.bands.any (fun bd => bd.name = b.name) then
    ⟨img.bands.map (fun bd => if bd.name = b.name then b else bd)⟩
  else
    ⟨img.bands ++ [b]⟩

/-- Modelled from the spec: `image.addBands(list)` adds the staged bands
in order, each with the collision rule of `Image.addBand`. -/
def Image.addBands (img : Image) (bs : List Band) : Image :=
  bs.foldl Image.addBand img

/-- Free-expression syntax of a user index (`image.expression` input).
Modelled from the spec: "an arbitrary arithmetic expression over variable
names bound to specific bands via the definition's mapping; must support
at minimum +, −, ×, ÷, parentheses, and numeric literals". -/
inductive EEExpr where
  | var : String → EEExpr
  | lit : ℚ → EEExpr
  | add : EEExpr → EEExpr → EEExpr
  | sub : EEExpr → EEExpr → EEExpr
  | mul : EEExpr → EEExpr → EEExpr
  | div : EEExpr → EEExpr → EEExpr

/-- Modelled from the spec: evaluation of a free expression against a
variable-to-raster environment; "unbound variables are a
MalformedExpression failure". -/
def evalExpr : EEExpr → List (String × Pix) → Except EEError Pix
  | .var v, env =>
      match env.lookup v with
      | some x => .ok x
      | none => .error .malformedExpression
  | .lit q, _ => .ok (fun _ => some q)
  | .add a b, env => do
      let x ← evalExpr a env
      let y ← evalExpr b env
      pure (x.add y)
  | .sub a b, env => do
      let x ← evalExpr a env
      let y ← evalExpr b env
      pure (x.subtract y)
  | .mul a b, env => do
      let x ← evalExpr a env
      let y ← evalExpr b env
      pure (x.multiply y)
  | .div a b, env => do
      let x ← evalExpr a env
      let y ← evalExpr b env
      pure (x.divide y)

/-- Modelled from the spec: `image.expression(expr, band_map)`; the band
map is materialised first (`{k: image.select(v) ...}` in the source, so a
missing band fails with `UnavailableBand`), then the expression is
evaluated over it. -/
def Image.expression (img : Image) (e : EEExpr)
    (band_map : List (String × String)) : Except EEError Pix := do
  let env ← band_map.mapM (fun kv => do
    let x ← img.select kv.2
    pure (kv.1, x))
  evalExpr e env

/-- One catalog entry of INDICES_CONFIG as read by the evaluator: the
evaluator only reads the keys 'formula' (via `.get` with default
'normalized_diff') and 'bands' (via `.get` with default `[]`); the
display-only keys (name, palette, min, max, category, descriptions) are
never read by the engine and are omitted here. -/
structure IndexCfg where
  formula : Option String
  bands : Option (List String)
deriving DecidableEq

/-- The fixed index catalog from src/gee concept/config/settings.py
(INDICES_CONFIG), restricted to the two engine-visible keys. -/
def INDICES_CONFIG : List (String × IndexCfg) :=
  [ ("NDVI",  ⟨some "normalized_diff", some ["B8", "B4"]⟩),
    ("EVI",   ⟨some "evi",             some ["B8", "B4", "B2"]⟩),
    ("SAVI",  ⟨some "savi",            some ["B8", "B4"]⟩),
    ("NDRE",  ⟨some "normalized_diff", some ["B8", "B5"]⟩),
    ("NDBI",  ⟨some "normalized_diff", some ["B11", "B8"]⟩),
    ("UI",    ⟨some "normalized_diff", some ["B12", "B8A"]⟩),
    ("IBI",   ⟨some "ibi",             some ["B11", "B8", "B3", "B4"]⟩),
    ("NDMI",  ⟨some "normalized_diff", some ["B8", "B11"]⟩),
    ("NDWI",  ⟨some "normalized_diff", some ["B3", "B8"]⟩),
    ("MNDWI", ⟨some "normalized_diff", some ["B3", "B11"]⟩),
    ("BSI",   ⟨some "bsi",             some ["B11", "B4", "B8", "B2"]⟩),
    ("RI",    ⟨some "normalized_diff", some ["B4", "B3"]⟩),
    ("NBR",   ⟨some "normalized_diff", some ["B8", "B12"]⟩),
    ("BAI",   ⟨some "normalized_diff", some ["B12", "B8A"]⟩) ]

/-- HeritageMonitor._compute_index: derive one predefined index band from
the formula recorded in the catalog entry.  Mirrors the Python if/elif
chain; an unmatched formula (or normalized_diff with fewer than two band
references) falls through to `return None`. -/
def compute_index (image : Image) (name : String) (cfg : IndexCfg) :
    Except EEError (Option Band) :=
  let formula := cfg.formula.getD "normalized_diff"
  let bands := cfg.bands.getD []
  if h : formula = "normalized_diff" ∧ 2 ≤ bands.length then
    (do
      let nd ← image.normalizedDifference (bands.get ⟨0, by omega⟩)
        (bands.get ⟨1, by omega⟩)
      pure (some (nd.rename name)))
  else if formula = "evi" then
    (do
      let nir ← image.select "B8"
      let red ← image.select "B4"
      let blue ← image.select "B2"
      let nir := nir.divideK 10000
      let red := red.divideK 10000
      let blue := blue.divideK 10000
      let evi := ((nir.subtract red).multiplyK 2.5).divide
        (((nir.add (red.multiplyK 6)).subtract (blue.multiplyK 7.5)).addK 1)
      pure (some (evi.rename name)))
  else if formula = "savi" then
    (do
      let L : ℚ := 0.5
      let nir ← image.select "B8"
      let red ← image.select "B4"
      let nir := nir.divideK 10000
      let red := red.divideK 10000
      let savi := ((nir.subtract red).divide
        ((nir.add red).addK L)).multiplyK (1 + L)
      pure (some (savi.rename name)))
  else if formula = "bsi" then
    (do
      let swir ← image.select "B11"
      let red ← image.select "B4"
      let nir ← image.select "B8"
      let blue ← image.select "B2"
      let bsi := ((swir.add red).subtract (nir.add blue)).divide
        ((swir.add red).add (nir.add blue))
      pure (some (bsi.rename name)))
  else if formula = "ibi" then
    (do
      let ndbi ← image.normalizedDifference "B11" "B8"
      let mndwi ← image.normalizedDifference "B3" "B11"
      let L : ℚ := 0.5
      let nir ← image.select "B8"
      let red ← image.select "B4"
      let nir := nir.divideK 10000
      let red := red.divideK 10000
      let savi := ((nir.subtract red).divide
        ((nir.add red).addK L)).multiplyK (1 + L)
      let mean_savi_mndwi := (savi.add mndwi).divideK 2
      let ibi := (ndbi.subtract mean_savi_mndwi).divide
        (ndbi.add mean_savi_mndwi)
      pure (some (ibi.rename name)))
  else
    pure none

/-- A user-defined (custom) index record: the Python dict read by
_compute_custom_index.  Keys accessed with `.get` carry their default
through `Option.getD`; keys accessed with `[...]` (band_a, band_b,
expression) raise KeyError when absent, modelled by `requireKey`. -/
structure CustomIndex where
  name : Option String
  formula : Option String
  band_a : Option String
  band_b : Option String
  expression : Option EEExpr
  expression_bands : List (String × String)

/-- Python subscript access `d['k']`: the value, or a KeyError. -/
def requireKey {α : Type} (o : Option α) : Except EEError α :=
  match o with
  | some v => .ok v
  | none => .error .keyError

/-- HeritageMonitor._compute_custom_index: derive one user-defined index
band; an unmatched formula falls through to `return None`. -/
def compute_custom_index (image : Image) (custom : CustomIndex) :
    Except EEError (Option Band) :=
  let name := custom.name.getD "CUSTOM"
  let formula := custom.formula.getD "normalized_diff"
  if formula = "normalized_diff" then
    (do
      let band_a ← requireKey custom.band_a
      let band_b ← requireKey custom.band_b
      let nd ← image.normalizedDifference band_a band_b
      pure (some (nd.rename name)))
  else if formula = "ratio" then
    (do
      let band_a ← requireKey custom.band_a
      let band_b ← requireKey custom.band_b
      let a ← image.select band_a
      let b ← image.select band_b
      pure (some ((a.divide b).rename name)))
  else if formula = "difference" then
    (do
      let band_a ← requireKey custom.band_a
      let band_b ← requireKey custom.band_b
      let a ← image.select band_a
      let b ← image.select band_b
      pure (some ((a.subtract b).rename name)))
  else if formula = "expression" then
    (do
      let expr ← requireKey custom.expression
      let x ← image.expression expr custom.expression_bands
      pure (some (x.rename name)))
  else
    pure none

/-- Staging loop of HeritageMonitor.calculate_indices over a catalog of
predefined definitions: each entry is evaluated; a successful band is
appended to bands_to_add, a `None` result contributes nothing, and an
exception is swallowed (`except Exception: pass`) so the entry is
skipped. -/
def stage_predefined (image : Image) (catalog : List (String × IndexCfg)) :
    List Band :=
  catalog.filterMap (fun nc =>
    match compute_index image nc.1 nc.2 with
    | .ok (some band) => some band
    | .ok none => none
    | .error _ => none)

/-- Staging loop of HeritageMonitor.calculate_indices over the
user-defined custom indices, with the same skip-on-failure behaviour. -/
def stage_custom (image : Image) (extra_indices : List CustomIndex) :
    List Band :=
  extra_indices.filterMap (fun custom =>
    match compute_custom_index image custom with
    | .ok (some band) => some band
    | .ok none => none
    | .error _ => none)

/-- The full bands_to_add list built by calculate_indices: predefined
catalog entries first (in INDICES_CONFIG order), then the user's custom
indices (in list order). -/
def staged_bands (image : Image) (extra_indices : List CustomIndex) :
    List Band :=
  stage_predefined image INDICES_CONFIG ++ stage_custom image extra_indices

/-- HeritageMonitor.calculate_indices: evaluate every predefined and
custom index over the image, skip failures, and add the successfully
staged bands to the image in one batch (`if bands_to_add: return
image.addBands(bands_to_add); return image`). -/
def calculate_indices (image : Image) (extra_indices : List CustomIndex) :
    Image :=
  let bands_to_add := staged_bands image extra_indices
  if bands_to_add.isEmpty then image else image.addBands bands_to_add

/-- A region of interest, reduced to the ids of the pixels whose centers
fall inside it (the spec's reduction domain). -/
structure Geometry where
  pixels : List Nat
deriving DecidableEq

/-- Aggregates returned by the mean/stdDev/min/max combined reducer; an
absent aggregate (no valid pixels) is `none`. -/
structure RegionStats where
  mean : Option ℚ
  stdDev : Option ℚ
  min : Option ℚ
  max : Option ℚ

/-- The defined (non-masked) samples of a raster over a region. -/
def regionValues (x : Pix) (g : Geometry) : List ℚ :=
  g.pixels.filterMap x

/-- Modelled from the spec: `reduceRegion` with the combined
mean/stdDev/min/max reducer.  "Pixels with undefined (not-a-number)
values are excluded from all four aggregates.  If zero valid pixels
remain, each aggregate is reported as a sentinel absence."  The backend's
numeric square root (used only inside stdDev) is passed in abstractly as
`sqrt`. -/
def reduceRegion (sqrt : ℚ → ℚ) (x : Pix) (g : Geometry) : RegionStats :=
  let vs := regionValues x g
  { mean := if vs = [] then none else some (vs.sum / (vs.length : ℚ))
    stdDev :=
      if vs = [] then none
      else
        some (sqrt (((vs.map
          (fun w => (w - vs.sum / (vs.length : ℚ)) ^ 2)).sum /
            (vs.length : ℚ))))
    min := vs.min?
    max := vs.max? }

/-- HeritageMonitor.calculate_statistics: select the index band (raising
if absent) and reduce it over the geometry with the combined reducer. -/
def calculate_statistics (sqrt : ℚ → ℚ) (image : Image)
    (geometry : Geometry) (index : String) : Except EEError RegionStats := do
  let x ← image.select index
  pure (reduceRegion sqrt x geometry)

/-- One archive scene as the collection query sees it: spatial footprint,
acquisition timestamp, and the CLOUDY_PIXEL_PERCENTAGE metadata value. -/
structure Scene where
  footprint : List Nat
  timestamp : ℤ
  cloudy_pixel_percentage : ℚ
deriving DecidableEq

/-- HeritageMonitor.get_sentinel2_collection: filter the upstream archive
(the external COPERNICUS/S2_SR_HARMONIZED dataset, passed in here) by
`filterBounds(geometry)`, `filterDate(start, end)` and
`filter(ee.Filter.lt('CLOUDY_PIXEL_PERCENTAGE', cloud_cover))`.
Modelled from the spec: filterBounds keeps scenes intersecting the
geometry, filterDate keeps acquisition dates "within [startDate,
endDate] inclusive", and the metadata filter keeps scenes with
cloud-cover strictly below the ceiling.  No sort is applied — the source
applies none. -/
def get_sentinel2_collection (archive : List Scene) (geometry : Geometry)
    (start_date end_date : ℤ) (cloud_cover : ℚ) : List Scene :=
  ((archive.filter
      (fun s => s.footprint.any (fun p => geometry.pixels.contains p))).filter
      (fun s => decide (start_date ≤ s.timestamp ∧ s.timestamp ≤ end_date))).filter
      (fun s => decide (s.cloudy_pixel_percentage < cloud_cover))

/-- The analysis configuration dict assembled by the sidebar: the seven
fields read by generate_params_hash plus the remaining keys of the dict
(analysis_type, indices, custom_indices, run_analysis, change_threshold,
sample_size) that the hash never reads. -/
structure AnalysisConfig where
  site_name : String
  center_lat : ℚ
  center_lon : ℚ
  buffer_km : ℚ
  start_date : String
  end_date : String
  cloud_cover : ℚ
  analysis_type : String
  indices : List String
  run_analysis : Bool
  change_threshold : ℚ
  sample_size : ℕ

/-- The f-string interpolation inside generate_params_hash:
"{site_name}_{center_lat}_{center_lon}_{buffer_km}_{start_date}_{end_date}_{cloud_cover}". -/
def hash_input (config : AnalysisConfig) : String :=
  config.site_name ++ "_" ++ toString config.center_lat ++ "_" ++
    toString config.center_lon ++ "_" ++ toString config.buffer_km ++ "_" ++
    config.start_date ++ "_" ++ config.end_date ++ "_" ++
    toString config.cloud_cover

/-- db_utils.generate_params_hash: the SHA-256 hex digest of the
interpolated parameter string.  The digest function itself lives in
Python's hashlib (external); it enters here as the abstract parameter
`sha256hex`. -/
def generate_params_hash (sha256hex : String → String)
    (config : AnalysisConfig) : String :=
  sha256hex (hash_input config)

/-- Written from the spec/claim text (not the source): normalized
difference of two raw values, (A − B)/(A + B), undefined when the
denominator is zero. -/
def ndValue (a b : ℚ) : Option ℚ :=
  if a + b = 0 then none else some ((a - b) / (a + b))

/-- Written from the spec/claim text: SAVI on reflectance descaled by
10000, SAVI = (1 + L) × (NIR′ − RED′) / (NIR′ + RED′ + L) with L = 0.5,
undefined on a zero denominator. -/
def saviValue (nir red : ℚ) : Option ℚ :=
  let nir' := nir / 10000
  let red' := red / 10000
  let L : ℚ := 0.5
  if nir' + red' + L = 0 then none
  else some ((1 + L) * (nir' - red') / (nir' + red' + L))

/-- Written from the claim text of C7: EVI = 2.5 × (NIR′ − RED′) /
(NIR′ + 6×RED′ − 7.5×BLUE′ + 1) with X′ = X / 10000, undefined on a zero
denominator. -/
def eviValue (nir red blue : ℚ) : Option ℚ :=
  let nir' := nir / 10000
  let red' := red / 10000
  let blue' := blue / 10000
  if nir' + 6 * red' - 7.5 * blue' + 1 = 0 then none
  else some (2.5 * (nir' - red') / (nir' + 6 * red' - 7.5 * blue' + 1))

/-- Written from the claim text of C2: IBI = (NDBI − avg(SAVI, MNDWI)) /
(NDBI + avg(SAVI, MNDWI)), NDBI = nd(SWIR1, NIR) and MNDWI = nd(GREEN,
SWIR1) on raw reflectance, the SAVI term on descaled reflectance with
L = 0.5; every undefined sub-term or zero denominator makes the result
undefined. -/
def ibiValue (green swir nir red : ℚ) : Option ℚ := do
  let ndbi ← ndValue swir nir
  let mndwi ← ndValue green swir
  let savi ← saviValue nir red
  let m := (savi + mndwi) / 2
  if ndbi + m = 0 then none else pure ((ndbi - m) / (ndbi + m))

/-- Pixelwise lifting of `eviValue` over three raster surfaces. -/
def eviSpecPix (nir red blue : Pix) : Pix := fun p => do
  let n ← nir p
  let r ← red p
  let b ← blue p
  eviValue n r b

/-- Pixelwise lifting of `ibiValue` over four raster surfaces. -/
def ibiSpecPix (green swir nir red : Pix) : Pix := fun p => do
  let g ← green p
  let s ← swir p
  let n ← nir p
  let r ← red p
  ibiValue g s n r

/-- Helper: the source-side EVI raster pipeline equals the spec-side EVI
formula pixelwise. -/
theorem evi_pix_eq (nir red blue : Pix) :
    (((nir.divideK 10000).subtract (red.divideK 10000)).multiplyK 2.5).divide
      ((((nir.divideK 10000).add ((red.divideK 10000).multiplyK 6)).subtract
        ((blue.divideK 10000).multiplyK 7.5)).addK 1) =
    eviSpecPix nir red blue := by
  funext p
  rcases hn : nir p with _ | n <;> rcases hr : red p with _ | r <;>
    rcases hb : blue p with _ | b <;>
    norm_num [Pix.divide, Pix.divideK, Pix.subtract, Pix.multiplyK, Pix.add,
      Pix.addK, eviSpecPix, eviValue, hn, hr, hb]
  have hden : n / 10000 + r / 10000 * 6 - b / 10000 * (15 / 2 : ℚ) + 1 =
      n / 10000 + 6 * (r / 10000) - 15 / 2 * (b / 10000) + 1 := by ring
  rw [hden]
  split_ifs with hc
  · rfl
  · congr 1
    ring

/-- Helper: the evaluator's EVI branch produces exactly the spec-side
EVI raster. -/
theorem compute_index_evi_eq (img : Image) (nir red blue : Pix)
    (hn : img.select "B8" = .ok nir) (hr : img.select "B4" = .ok red)
    (hb : img.select "B2" = .ok blue) :
    compute_index img "EVI" ⟨some "evi", some ["B8", "B4", "B2"]⟩ =
      .ok (some (Pix.rename (eviSpecPix nir red blue) "EVI")) := by
  unfold compute_index
  rw [dif_neg (by decide)]
  rw [if_pos (by decide)]
  rw [hn, hr, hb]
  show Except.ok _ = _
  rw [evi_pix_eq]

/-- C7: for every image providing bands B2 (blue), B4 (red) and B8
(NIR), the evaluator's EVI band equals 2.5 × (NIR′ − RED′) / (NIR′ +
6×RED′ − 7.5×BLUE′ + 1) at every pixel, where each primed value is the
raw band value divided by 10000 (undefined pixels and zero denominators
propagate as undefined on both sides). -/
theorem C7_evi_formula (img : Image) (nir red blue : Pix)
    (hn : img.select "B8" = .ok nir) (hr : img.select "B4" = .ok red)
    (hb : img.select "B2" = .ok blue) :
    compute_index img "EVI" ⟨some "evi", some ["B8", "B4", "B2"]⟩ =
      .ok (some (Pix.rename (eviSpecPix nir red blue) "EVI")) :=
  compute_index_evi_eq img nir red blue hn hr hb

/-- A constant raster surface, used to build concrete witness images. -/
def constPix (q : ℚ) : Pix := fun _ => some q

/-- A concrete Sentinel-2-like image carrying all bands the predefined
catalog references, with constant reflectance per band. -/
def witnessImage : Image :=
  ⟨[⟨"B2", constPix 500⟩, ⟨"B3", constPix 800⟩, ⟨"B4", constPix 1000⟩,
    ⟨"B5", constPix 900⟩, ⟨"B8", constPix 5000⟩, ⟨"B8A", constPix 4800⟩,
    ⟨"B11", constPix 2000⟩, ⟨"B12", constPix 1500⟩]⟩

/-- Witness for C7 at a concrete image. -/
theorem C7_evi_formula_witness :
    witnessImage.select "B8" = .ok (constPix 5000) ∧
    witnessImage.select "B4" = .ok (constPix 1000) ∧
    witnessImage.select "B2" = .ok (constPix 500) ∧
    compute_index witnessImage "EVI" ⟨some "evi", some ["B8", "B4", "B2"]⟩ =
      .ok (some (Pix.rename
        (eviSpecPix (constPix 5000) (constPix 1000) (constPix 500)) "EVI")) :=
  ⟨rfl, rfl, rfl, C7_evi_formula witnessImage _ _ _ rfl rfl rfl⟩

set_option maxHeartbeats 1600000 in
/-- Helper: the evaluator's IBI branch produces exactly the spec-side
IBI raster. -/
theorem compute_index_ibi_eq (img : Image) (green swir nir red : Pix)
    (hg : img.select "B3" = .ok green) (hs : img.select "B11" = .ok swir)
    (hn : img.select "B8" = .ok nir) (hr : img.select "B4" = .ok red) :
    compute_index img "IBI" ⟨some "ibi", some ["B11", "B8", "B3", "B4"]⟩ =
      .ok (some (Pix.rename (ibiSpecPix green swir nir red) "IBI")) := by
  unfold compute_index
  rw [dif_neg (by decide), if_neg (by decide), if_neg (by decide),
    if_neg (by decide), if_pos (by decide)]
  simp only [Image.normalizedDifference]
  rw [hg, hs, hn, hr]
  show Except.ok _ = _
  congr 1
  congr 1
  congr 1
  funext p
  rcases hgp : green p with _ | g <;> rcases hsp : swir p with _ | s <;>
    rcases hnp : nir p with _ | n <;> rcases hrp : red p with _ | r <;>
    norm_num [Pix.divide, Pix.divideK, Pix.subtract, Pix.multiplyK, Pix.add,
      Pix.addK, ndPix, ibiSpecPix, ibiValue, ndValue, saviValue,
      hgp, hsp, hnp, hrp]
  by_cases h1 : s + n = 0 <;> by_cases h2 : g + s = 0 <;>
    by_cases h3 : n / 10000 + r / 10000 + (2⁻¹ : ℚ) = 0 <;>
    simp [h1, h2, h3]
  have hv : (n / 10000 - r / 10000) / (n / 10000 + r / 10000 + 2⁻¹) * (3 / 2 : ℚ) =
      3 / 2 * (n / 10000 - r / 10000) / (n / 10000 + r / 10000 + 2⁻¹) := by
    ring
  rw [hv]

/-- C2: for every image providing bands B3 (green), B4 (red), B8 (NIR)
and B11 (SWIR1), the evaluator's IBI band equals (NDBI − avg(SAVI,
MNDWI)) / (NDBI + avg(SAVI, MNDWI)) at every pixel, with NDBI and MNDWI
on raw (non-descaled) reflectance and the embedded SAVI term on
reflectance descaled by 10000 with L = 0.5 — the mixed-scale asymmetry
exactly as stated. -/
theorem C2_ibi_formula (img : Image) (green swir nir red : Pix)
    (hg : img.select "B3" = .ok green) (hs : img.select "B11" = .ok swir)
    (hn : img.select "B8" = .ok nir) (hr : img.select "B4" = .ok red) :
    compute_index img "IBI" ⟨some "ibi", some ["B11", "B8", "B3", "B4"]⟩ =
      .ok (some (Pix.rename (ibiSpecPix green swir nir red) "IBI")) :=
  compute_index_ibi_eq img green swir nir red hg hs hn hr

/-- Witness for C2 at a concrete image. -/
theorem C2_ibi_formula_witness :
    witnessImage.select "B3" = .ok (constPix 800) ∧
    witnessImage.select "B11" = .ok (constPix 2000) ∧
    witnessImage.select "B8" = .ok (constPix 5000) ∧
    witnessImage.select "B4" = .ok (constPix 1000) ∧
    compute_index witnessImage "IBI" ⟨some "ibi", some ["B11", "B8", "B3", "B4"]⟩ =
      .ok (some (Pix.rename
        (ibiSpecPix (constPix 800) (constPix 2000) (constPix 5000)
          (constPix 1000)) "IBI")) :=
  ⟨rfl, rfl, rfl, rfl, C2_ibi_formula witnessImage _ _ _ _ rfl rfl rfl rfl⟩

/-- C9: for the fixed formula kinds evi, savi, bsi and ibi, the
evaluator's output does not depend on the band-reference list stored in
the index definition — the hardcoded bands are read instead. -/
theorem C9_band_list_independence (img : Image) (name f : String)
    (bands1 bands2 : Option (List String))
    (hf : f = "evi" ∨ f = "savi" ∨ f = "bsi" ∨ f = "ibi") :
    compute_index img name ⟨some f, bands1⟩ =
      compute_index img name ⟨some f, bands2⟩ := by
  rcases hf with rfl | rfl | rfl | rfl <;> rfl

/-- Witness for C9: two EVI definitions with different band lists give
the same result on a concrete image. -/
theorem C9_band_list_independence_witness :
    (("evi" : String) = "evi" ∨ ("evi" : String) = "savi" ∨
      ("evi" : String) = "bsi" ∨ ("evi" : String) = "ibi") ∧
    compute_index witnessImage "EVI2" ⟨some "evi", some ["B1", "B9"]⟩ =
      compute_index witnessImage "EVI2" ⟨some "evi", none⟩ :=
  ⟨by decide,
    C9_band_list_independence witnessImage "EVI2" "evi" (some ["B1", "B9"])
      none (by decide)⟩

/-- Helper: a predefined definition with an unknown formula kind falls
through every branch of _compute_index to `return None`. -/
theorem compute_index_unknown_formula (img : Image) (name : String)
    (cfg : IndexCfg)
    (hf : cfg.formula.getD "normalized_diff" ∉
      (["normalized_diff", "evi", "savi", "bsi", "ibi"] : List String)) :
    compute_index img name cfg = .ok none := by
  simp only [List.mem_cons, List.mem_singleton, not_or] at hf
  obtain ⟨h1, h2, h3, h4, h5, -⟩ := hf
  unfold compute_index
  rw [dif_neg (fun h => h1 h.1), if_neg h2, if_neg h3, if_neg h4, if_neg h5]
  rfl

/-- Helper: a normalized_diff definition with fewer than two band
references falls through to `return None`. -/
theorem compute_index_short_bandlist (img : Image) (name : String)
    (cfg : IndexCfg)
    (hf : cfg.formula.getD "normalized_diff" = "normalized_diff")
    (hb : (cfg.bands.getD []).length < 2) :
    compute_index img name cfg = .ok none := by
  unfold compute_index
  rw [dif_neg (by rintro ⟨-, h2⟩; omega)]
  rw [if_neg (by rw [hf]; decide), if_neg (by rw [hf]; decide),
    if_neg (by rw [hf]; decide), if_neg (by rw [hf]; decide)]
  rfl

/-- Helper: a custom definition with an unknown formula kind falls
through every branch of _compute_custom_index to `return None`. -/
theorem compute_custom_unknown_formula (img : Image) (c : CustomIndex)
    (hf : c.formula.getD "normalized_diff" ∉
      (["normalized_diff", "ratio", "difference", "expression"] : List String)) :
    compute_custom_index img c = .ok none := by
  simp only [List.mem_cons, List.mem_singleton, not_or] at hf
  obtain ⟨h1, h2, h3, h4, -⟩ := hf
  unfold compute_custom_index
  rw [if_neg h1, if_neg h2, if_neg h3, if_neg h4]
  rfl

/-- Helper: a catalog entry whose evaluation yields `None` stages no
band. -/
theorem stage_predefined_skip_none (img : Image) (name : String)
    (cfg : IndexCfg) (cat1 cat2 : List (String × IndexCfg))
    (h : compute_index img name cfg = .ok none) :
    stage_predefined img (cat1 ++ (name, cfg) :: cat2) =
      stage_predefined img (cat1 ++ cat2) := by
  simp [stage_predefined, List.filterMap_append, List.filterMap_cons, h]

/-- Helper: a custom definition whose evaluation yields `None`
contributes nothing to the composed image. -/
theorem calculate_indices_skip_none (img : Image) (c : CustomIndex)
    (pre post : List CustomIndex)
    (h : compute_custom_index img c = .ok none) :
    calculate_indices img (pre ++ c :: post) =
      calculate_indices img (pre ++ post) := by
  unfold calculate_indices staged_bands
  have hs : stage_custom img (pre ++ c :: post) =
      stage_custom img (pre ++ post) := by
    simp [stage_custom, List.filterMap_append, List.filterMap_cons, h]
  rw [hs]

/-- C10: a predefined definition whose formula kind is outside
{normalized_diff, evi, savi, bsi, ibi}, or normalized_diff with fewer
than two band references, and a custom definition whose formula kind is
outside {normalized_diff, ratio, difference, expression}, is silently
omitted: the per-index evaluation yields no band and no error, staging
skips it, and compose returns an image without any band for it. -/
theorem C10_unknown_formula_omitted :
    (∀ (img : Image) (name : String) (cfg : IndexCfg),
      cfg.formula.getD "normalized_diff" ∉
        (["normalized_diff", "evi", "savi", "bsi", "ibi"] : List String) →
      compute_index img name cfg = .ok none) ∧
    (∀ (img : Image) (name : String) (cfg : IndexCfg),
      cfg.formula.getD "normalized_diff" = "normalized_diff" →
      (cfg.bands.getD []).length < 2 →
      compute_index img name cfg = .ok none) ∧
    (∀ (img : Image) (c : CustomIndex),
      c.formula.getD "normalized_diff" ∉
        (["normalized_diff", "ratio", "difference", "expression"] : List String) →
      compute_custom_index img c = .ok none) ∧
    (∀ (img : Image) (name : String) (cfg : IndexCfg)
      (cat1 cat2 : List (String × IndexCfg)),
      compute_index img name cfg = .ok none →
      stage_predefined img (cat1 ++ (name, cfg) :: cat2) =
        stage_predefined img (cat1 ++ cat2)) ∧
    (∀ (img : Image) (c : CustomIndex) (pre post : List CustomIndex),
      compute_custom_index img c = .ok none →
      calculate_indices img (pre ++ c :: post) =
        calculate_indices img (pre ++ post)) :=
  ⟨compute_index_unknown_formula, compute_index_short_bandlist,
    compute_custom_unknown_formula, stage_predefined_skip_none,
    calculate_indices_skip_none⟩

/-- A concrete custom index with an unknown formula kind. -/
def badCustom : CustomIndex := ⟨some "BAD", some "bogus", none, none, none, []⟩

/-- Witness for C10 at concrete inputs: an unknown predefined formula, a
short normalized_diff band list, an unknown custom formula, and compose
ignoring the bad custom index. -/
theorem C10_unknown_formula_omitted_witness :
    compute_index witnessImage "X" ⟨some "bogus", none⟩ = .ok none ∧
    compute_index witnessImage "Y" ⟨some "normalized_diff", some ["B8"]⟩ =
      .ok none ∧
    compute_custom_index witnessImage badCustom = .ok none ∧
    stage_predefined witnessImage
        ([] ++ ("X", ⟨some "bogus", none⟩) :: []) =
      stage_predefined witnessImage ([] ++ []) ∧
    calculate_indices witnessImage [badCustom] =
      calculate_indices witnessImage [] :=
  ⟨C10_unknown_formula_omitted.1 witnessImage "X" ⟨some "bogus", none⟩
      (by decide),
    C10_unknown_formula_omitted.2.1 witnessImage "Y"
      ⟨some "normalized_diff", some ["B8"]⟩ (by decide) (by decide),
    C10_unknown_formula_omitted.2.2.1 witnessImage badCustom (by decide),
    C10_unknown_formula_omitted.2.2.2.1 witnessImage "X"
      ⟨some "bogus", none⟩ [] []
      (C10_unknown_formula_omitted.1 witnessImage "X" ⟨some "bogus", none⟩
        (by decide)),
    C10_unknown_formula_omitted.2.2.2.2 witnessImage badCustom [] [] rfl⟩

/-- C8: the cache key depends on exactly the seven hashed fields — two
configurations agreeing on site name, latitude, longitude, buffer
radius, start date, end date and cloud ceiling receive the same key,
whatever the digest function and whatever their other fields. -/
theorem C8_cache_key_seven_fields (sha256hex : String → String)
    (c1 c2 : AnalysisConfig)
    (h1 : c1.site_name = c2.site_name) (h2 : c1.center_lat = c2.center_lat)
    (h3 : c1.center_lon = c2.center_lon) (h4 : c1.buffer_km = c2.buffer_km)
    (h5 : c1.start_date = c2.start_date) (h6 : c1.end_date = c2.end_date)
    (h7 : c1.cloud_cover = c2.cloud_cover) :
    generate_params_hash sha256hex c1 = generate_params_hash sha256hex c2 := by
  unfold generate_params_hash hash_input
  rw [h1, h2, h3, h4, h5, h6, h7]

/-- A concrete analysis configuration. -/
def configA : AnalysisConfig :=
  ⟨"Alba Iulia Fortress (Romania)", 46, 23, 2, "2023-01-01", "2024-12-31",
    20, "Comprehensive Analysis", ["NDVI"], true, 0.2, 500⟩

/-- The same seven hashed fields as `configA`, every other field
different. -/
def configB : AnalysisConfig :=
  ⟨"Alba Iulia Fortress (Romania)", 46, 23, 2, "2023-01-01", "2024-12-31",
    20, "Change Detection", ["NDVI", "NDBI"], false, 0.5, 100⟩

/-- Witness for C8: `configA` and `configB` differ in their non-hashed
fields yet receive the same cache key (digest instantiated with the
identity function). -/
theorem C8_cache_key_seven_fields_witness :
    configA.indices ≠ configB.indices ∧
    configA.analysis_type ≠ configB.analysis_type ∧
    generate_params_hash id configA = generate_params_hash id configB :=
  ⟨by decide, by decide,
    C8_cache_key_seven_fields id configA configB rfl rfl rfl rfl rfl rfl rfl⟩

/-- C5: every scene returned by the collection query comes from the
archive, intersects the query geometry, has its acquisition timestamp
inside [start_date, end_date] (inclusive at both ends), and has a
CLOUDY_PIXEL_PERCENTAGE strictly below the ceiling; hence no scene
violating any of the three filter conditions is returned. -/
theorem C5_query_filters (archive : List Scene) (g : Geometry)
    (s e : ℤ) (c : ℚ) (scene : Scene)
    (hmem : scene ∈ get_sentinel2_collection archive g s e c) :
    scene ∈ archive ∧
    (∃ p ∈ scene.footprint, p ∈ g.pixels) ∧
    s ≤ scene.timestamp ∧ scene.timestamp ≤ e ∧
    scene.cloudy_pixel_percentage < c := by
  unfold get_sentinel2_collection at hmem
  simp [List.mem_filter] at hmem
  tauto

/-- A two-scene archive whose scenes are not in chronological order. -/
def outOfOrderArchive : List Scene := [⟨[0], 5, 0⟩, ⟨[0], 3, 0⟩]

/-- The one-pixel query geometry used by concrete collection-query
scenarios. -/
def wGeom : Geometry := ⟨[0]⟩

/-- Witness for C5: a concrete scene returned by a concrete query
satisfies all three filter conditions. -/
theorem C5_query_filters_witness :
    (⟨[0], 3, 0⟩ : Scene) ∈
      get_sentinel2_collection outOfOrderArchive wGeom 0 10 50 ∧
    ((⟨[0], 3, 0⟩ : Scene) ∈ outOfOrderArchive ∧
      (∃ p ∈ (⟨[0], 3, 0⟩ : Scene).footprint, p ∈ wGeom.pixels) ∧
      (0 : ℤ) ≤ (⟨[0], 3, 0⟩ : Scene).timestamp ∧
      (⟨[0], 3, 0⟩ : Scene).timestamp ≤ 10 ∧
      (⟨[0], 3, 0⟩ : Scene).cloudy_pixel_percentage < 50) :=
  ⟨by decide,
    C5_query_filters outOfOrderArchive wGeom 0 10 50 ⟨[0], 3, 0⟩ (by decide)⟩

/-- Counterexample to C6 as stated: the collection query applies no
sort, so an archive whose scenes arrive out of chronological order is
returned out of order — here both scenes pass every filter and the
output sequence has timestamps 5 then 3. -/
theorem C6_sorted_counterexample :
    ¬ List.Pairwise (fun a b => a.timestamp ≤ b.timestamp)
      (get_sentinel2_collection outOfOrderArchive wGeom 0 10 50) := by
  decide

/-- C6 (amended): the collection query merely filters and therefore
preserves the relative order of the upstream archive; whenever the
archive is ordered by acquisition timestamp ascending, so is the
returned sequence. -/
theorem C6_order_preserving (archive : List Scene) (g : Geometry)
    (s e : ℤ) (c : ℚ)
    (h : archive.Pairwise (fun a b => a.timestamp ≤ b.timestamp)) :
    (get_sentinel2_collection archive g s e c).Pairwise
      (fun a b => a.timestamp ≤ b.timestamp) := by
  unfold get_sentinel2_collection
  exact ((h.filter _).filter _).filter _

/-- Witness for the amended C6 at a concrete chronologically ordered
archive. -/
theorem C6_order_preserving_witness :
    ([⟨[0], 3, 0⟩, ⟨[0], 5, 0⟩] : List Scene).Pairwise
      (fun a b => a.timestamp ≤ b.timestamp) ∧
    (get_sentinel2_collection [⟨[0], 3, 0⟩, ⟨[0], 5, 0⟩] wGeom 0 10 50).Pairwise
      (fun a b => a.timestamp ≤ b.timestamp) :=
  ⟨by decide,
    C6_order_preserving [⟨[0], 3, 0⟩, ⟨[0], 5, 0⟩] wGeom 0 10 50 (by decide)⟩

/-- Pixelwise lifting of `saviValue` over two raster surfaces. -/
def saviSpecPix (nir red : Pix) : Pix := fun p => do
  let n ← nir p
  let r ← red p
  saviValue n r

/-- Helper: the evaluator's SAVI branch produces exactly the spec-side
SAVI raster. -/
theorem compute_index_savi_eq (img : Image) (nir red : Pix)
    (hn : img.select "B8" = .ok nir) (hr : img.select "B4" = .ok red) :
    compute_index img "SAVI" ⟨some "savi", some ["B8", "B4"]⟩ =
      .ok (some (Pix.rename (saviSpecPix nir red) "SAVI")) := by
  unfold compute_index
  rw [dif_neg (by decide), if_neg (by decide), if_pos (by decide)]
  rw [hn, hr]
  show Except.ok _ = _
  congr 1
  congr 1
  congr 1
  funext p
  rcases hnp : nir p with _ | n <;> rcases hrp : red p with _ | r <;>
    norm_num [Pix.divide, Pix.divideK, Pix.subtract, Pix.multiplyK, Pix.add,
      Pix.addK, saviSpecPix, saviValue, hnp, hrp]
  split_ifs with hc
  · rfl
  · simp only [Option.some_bind]
    congr 1
    ring

/-- Helper: when the EVI denominator vanishes at a pixel, the derived
EVI band is undefined there. -/
theorem evi_zero_den (img : Image) (nir red blue : Pix) (p : Nat) (n r b : ℚ)
    (hn : img.select "B8" = .ok nir) (hr : img.select "B4" = .ok red)
    (hb : img.select "B2" = .ok blue)
    (hnp : nir p = some n) (hrp : red p = some r) (hbp : blue p = some b)
    (hden : n / 10000 + 6 * (r / 10000) - 7.5 * (b / 10000) + 1 = 0) :
    ∃ band : Band,
      compute_index img "EVI" ⟨some "evi", some ["B8", "B4", "B2"]⟩ =
        .ok (some band) ∧ band.pix p = none := by
  refine ⟨_, compute_index_evi_eq img nir red blue hn hr hb, ?_⟩
  simp [Pix.rename, eviSpecPix, eviValue, hnp, hrp, hbp, hden]

/-- Helper: when the SAVI denominator vanishes at a pixel, the derived
SAVI band is undefined there. -/
theorem savi_zero_den (img : Image) (nir red : Pix) (p : Nat) (n r : ℚ)
    (hn : img.select "B8" = .ok nir) (hr : img.select "B4" = .ok red)
    (hnp : nir p = some n) (hrp : red p = some r)
    (hden : n / 10000 + r / 10000 + 0.5 = 0) :
    ∃ band : Band,
      compute_index img "SAVI" ⟨some "savi", some ["B8", "B4"]⟩ =
        .ok (some band) ∧ band.pix p = none := by
  refine ⟨_, compute_index_savi_eq img nir red hn hr, ?_⟩
  simp [Pix.rename, saviSpecPix, saviValue, hnp, hrp, hden]

/-- Helper: when the IBI outer denominator vanishes at a pixel (all
sub-terms defined), the derived IBI band is undefined there. -/
theorem ibi_zero_den (img : Image) (green swir nir red : Pix) (p : Nat)
    (g s n r : ℚ)
    (hg : img.select "B3" = .ok green) (hs : img.select "B11" = .ok swir)
    (hn : img.select "B8" = .ok nir) (hr : img.select "B4" = .ok red)
    (hgp : green p = some g) (hsp : swir p = some s)
    (hnp : nir p = some n) (hrp : red p = some r)
    (h1 : s + n ≠ 0) (h2 : g + s ≠ 0) (h3 : n / 10000 + r / 10000 + 0.5 ≠ 0)
    (hden : (s - n) / (s + n) +
      ((1 + 0.5) * (n / 10000 - r / 10000) / (n / 10000 + r / 10000 + 0.5) +
        (g - s) / (g + s)) / 2 = 0) :
    ∃ band : Band,
      compute_index img "IBI" ⟨some "ibi", some ["B11", "B8", "B3", "B4"]⟩ =
        .ok (some band) ∧ band.pix p = none := by
  refine ⟨_, compute_index_ibi_eq img green swir nir red hg hs hn hr, ?_⟩
  simp [Pix.rename, ibiSpecPix, ibiValue, ndValue, saviValue,
    hgp, hsp, hnp, hrp, h1, h2, h3, hden]

/-- Helper: statistics over a region whose pixels are all undefined
report every aggregate as absent. -/
theorem stats_all_undefined (sqrt : ℚ → ℚ) (img : Image) (x : Pix)
    (geom : Geometry) (index : String)
    (hsel : img.select index = .ok x)
    (hund : ∀ q ∈ geom.pixels, x q = none) :
    calculate_statistics sqrt img geom index = .ok ⟨none, none, none, none⟩ := by
  unfold calculate_statistics
  rw [hsel]
  show Except.ok _ = _
  congr 1
  have hvs : regionValues x geom = [] := by
    rw [regionValues, List.filterMap_eq_nil_iff]
    exact hund
  simp [reduceRegion, hvs]

/-- C3: a vanishing denominator never raises — a normalized difference
with A + B = 0, a ratio with zero divisor, and the EVI/SAVI/IBI formulas
with zero denominator all carry an undefined value at the affected
pixel, and region statistics over a region containing only undefined
pixels report every aggregate as absent rather than zero. -/
theorem C3_zero_denominator_undefined :
    (∀ (x y : Pix) (p : Nat) (u v : ℚ), x p = some u → y p = some v →
      u + v = 0 → ndPix x y p = none) ∧
    (∀ (x y : Pix) (p : Nat), y p = some 0 → Pix.divide x y p = none) ∧
    (∀ (img : Image) (nir red blue : Pix) (p : Nat) (n r b : ℚ),
      img.select "B8" = .ok nir → img.select "B4" = .ok red →
      img.select "B2" = .ok blue →
      nir p = some n → red p = some r → blue p = some b →
      n / 10000 + 6 * (r / 10000) - 7.5 * (b / 10000) + 1 = 0 →
      ∃ band : Band,
        compute_index img "EVI" ⟨some "evi", some ["B8", "B4", "B2"]⟩ =
          .ok (some band) ∧ band.pix p = none) ∧
    (∀ (img : Image) (nir red : Pix) (p : Nat) (n r : ℚ),
      img.select "B8" = .ok nir → img.select "B4" = .ok red →
      nir p = some n → red p = some r →
      n / 10000 + r / 10000 + 0.5 = 0 →
      ∃ band : Band,
        compute_index img "SAVI" ⟨some "savi", some ["B8", "B4"]⟩ =
          .ok (some band) ∧ band.pix p = none) ∧
    (∀ (img : Image) (green swir nir red : Pix) (p : Nat) (g s n r : ℚ),
      img.select "B3" = .ok green → img.select "B11" = .ok swir →
      img.select "B8" = .ok nir → img.select "B4" = .ok red →
      green p = some g → swir p = some s →
      nir p = some n → red p = some r →
      s + n ≠ 0 → g + s ≠ 0 → n / 10000 + r / 10000 + 0.5 ≠ 0 →
      (s - n) / (s + n) +
        ((1 + 0.5) * (n / 10000 - r / 10000) / (n / 10000 + r / 10000 + 0.5) +
          (g - s) / (g + s)) / 2 = 0 →
      ∃ band : Band,
        compute_index img "IBI" ⟨some "ibi", some ["B11", "B8", "B3", "B4"]⟩ =
          .ok (some band) ∧ band.pix p = none) ∧
    (∀ (sqrt : ℚ → ℚ) (img : Image) (x : Pix) (geom : Geometry)
      (index : String),
      img.select index = .ok x → (∀ q ∈ geom.pixels, x q = none) →
      calculate_statistics sqrt img geom index =
        .ok ⟨none, none, none, none⟩) := by
  refine ⟨?_, ?_, ?_, ?_, ?_, ?_⟩
  · intro x y p u v hx hy h
    simp [ndPix, hx, hy, h]
  · intro x y p hy
    rcases hx : x p with _ | u <;> simp [Pix.divide, hx, hy]
  · intro img nir red blue p n r b hn hr hb hnp hrp hbp hden
    exact evi_zero_den img nir red blue p n r b hn hr hb hnp hrp hbp hden
  · intro img nir red p n r hn hr hnp hrp hden
    exact savi_zero_den img nir red p n r hn hr hnp hrp hden
  · intro img green swir nir red p g s n r hg hs hn hr hgp hsp hnp hrp
      h1 h2 h3 hden
    exact ibi_zero_den img green swir nir red p g s n r hg hs hn hr
      hgp hsp hnp hrp h1 h2 h3 hden
  · intro sqrt img x geom index hsel hund
    exact stats_all_undefined sqrt img x geom index hsel hund

/-- A raster surface undefined everywhere. -/
def nonePix : Pix := fun _ => none

/-- Concrete image whose EVI denominator is zero at every pixel. -/
def wEviImg : Image :=
  ⟨[⟨"B2", constPix 2000⟩, ⟨"B4", constPix 0⟩, ⟨"B8", constPix 5000⟩]⟩

/-- Concrete image whose SAVI denominator is zero at every pixel. -/
def wSaviImg : Image :=
  ⟨[⟨"B4", constPix (-5000)⟩, ⟨"B8", constPix 0⟩]⟩

/-- Concrete image whose IBI outer denominator is zero at every pixel
(all four bands equal and positive). -/
def wIbiImg : Image :=
  ⟨[⟨"B3", constPix 1000⟩, ⟨"B4", constPix 1000⟩, ⟨"B8", constPix 1000⟩,
    ⟨"B11", constPix 1000⟩]⟩

/-- Concrete image with one band undefined everywhere. -/
def wNoneImg : Image := ⟨[⟨"X", nonePix⟩]⟩

/-- Witness for C3 at concrete inputs: each division-by-zero scenario
yields an undefined pixel, and statistics over an all-undefined region
report absent aggregates. -/
theorem C3_zero_denominator_undefined_witness :
    ndPix (constPix 1) (constPix (-1)) 0 = none ∧
    Pix.divide (constPix 1) (constPix 0) 0 = none ∧
    (∃ band : Band,
      compute_index wEviImg "EVI" ⟨some "evi", some ["B8", "B4", "B2"]⟩ =
        .ok (some band) ∧ band.pix 0 = none) ∧
    (∃ band : Band,
      compute_index wSaviImg "SAVI" ⟨some "savi", some ["B8", "B4"]⟩ =
        .ok (some band) ∧ band.pix 0 = none) ∧
    (∃ band : Band,
      compute_index wIbiImg "IBI" ⟨some "ibi", some ["B11", "B8", "B3", "B4"]⟩ =
        .ok (some band) ∧ band.pix 0 = none) ∧
    calculate_statistics id wNoneImg wGeom "X" = .ok ⟨none, none, none, none⟩ :=
  ⟨C3_zero_denominator_undefined.1 (constPix 1) (constPix (-1)) 0 1 (-1)
      rfl rfl (by norm_num),
    C3_zero_denominator_undefined.2.1 (constPix 1) (constPix 0) 0 rfl,
    C3_zero_denominator_undefined.2.2.1 wEviImg (constPix 5000) (constPix 0)
      (constPix 2000) 0 5000 0 2000 rfl rfl rfl rfl rfl rfl (by norm_num),
    C3_zero_denominator_undefined.2.2.2.1 wSaviImg (constPix 0)
      (constPix (-5000)) 0 0 (-5000) rfl rfl rfl rfl (by norm_num),
    C3_zero_denominator_undefined.2.2.2.2.1 wIbiImg (constPix 1000)
      (constPix 1000) (constPix 1000) (constPix 1000) 0 1000 1000 1000 1000
      rfl rfl rfl rfl rfl rfl rfl rfl (by norm_num) (by norm_num)
      (by norm_num) (by norm_num),
    C3_zero_denominator_undefined.2.2.2.2.2 id wNoneImg nonePix wGeom "X"
      rfl (by decide)⟩

/-- The list of band names of an image, in band order. -/
def bandNames (img : Image) : List String := img.bands.map Band.name

/-- The band of an image carrying a given name (the first, and once
names are unique the only, match). -/
def Image.lookup (img : Image) (name : String) : Option Band :=
  img.bands.find? (fun bd => bd.name = name)

/-- The last band named `name` in a staged list — the "last staged
wins" winner for that name. -/
def lastStaged (bs : List Band) (name : String) : Option Band :=
  bs.foldl (fun acc b => if b.name = name then some b else acc) none

/-- Helper: after overwriting every band named like `b` with `b`, a
lookup of that name finds `b` (when a band of that name existed). -/
theorem find_replace_self (l : List Band) (b : Band)
    (h : l.any (fun bd => bd.name = b.name)) :
    (l.map (fun bd => if bd.name = b.name then b else bd)).find?
      (fun bd => bd.name = b.name) = some b := by
  induction l with
  | nil => simp at h
  | cons c l ih =>
    by_cases hc : c.name = b.name
    · rw [List.map_cons, if_pos hc, List.find?_cons_of_pos _ (by simp)]
    · simp only [List.any_cons, Bool.or_eq_true, decide_eq_true_eq] at h
      rcases h with h | h
      · exact absurd h hc
      · rw [List.map_cons, if_neg hc, List.find?_cons_of_neg _ (by simp [hc])]
        exact ih (by simpa using h)

/-- Helper: overwriting bands named like `b` does not change lookups of
other names. -/
theorem find_replace_other (l : List Band) (b : Band) (name : String)
    (hn : name ≠ b.name) :
    (l.map (fun bd => if bd.name = b.name then b else bd)).find?
      (fun bd => bd.name = name) =
    l.find? (fun bd => bd.name = name) := by
  induction l with
  | nil => simp
  | cons c l ih =>
    by_cases hc : c.name = b.name
    · have h1 : ¬ b.name = name := fun h => hn h.symm
      have h2 : ¬ c.name = name := by
        rw [hc]
        exact h1
      rw [List.map_cons, if_pos hc, List.find?_cons_of_neg _ (by simp [h1]),
        List.find?_cons_of_neg _ (by simp [h2])]
      exact ih
    · by_cases h2 : c.name = name
      · rw [List.map_cons, if_neg hc, List.find?_cons_of_pos _ (by simp [h2]),
          List.find?_cons_of_pos _ (by simp [h2])]
      · rw [List.map_cons, if_neg hc, List.find?_cons_of_neg _ (by simp [h2]),
          List.find?_cons_of_neg _ (by simp [h2])]
        exact ih

/-- Helper: adding one band keeps the name list unchanged on collision
and appends the new name otherwise. -/
theorem names_addBand (img : Image) (b : Band) :
    bandNames (img.addBand b) =
      if img.bands.any (fun bd => bd.name = b.name) then bandNames img
      else bandNames img ++ [b.name] := by
  unfold Image.addBand bandNames
  split_ifs with h
  · show (img.bands.map _).map _ = _
    rw [List.map_map]
    refine List.map_congr_left ?_
    intro bd _
    by_cases hbd : bd.name = b.name
    · simp [Function.comp, hbd]
    · simp [Function.comp, hbd]
  · simp

/-- Helper: after adding one band, looking up its name yields it and
every other lookup is unchanged. -/
theorem lookup_addBand (img : Image) (b : Band) (name : String) :
    (img.addBand b).lookup name =
      if name = b.name then some b else img.lookup name := by
  unfold Image.addBand Image.lookup
  by_cases hex : img.bands.any (fun bd => bd.name = b.name)
  · rw [if_pos hex]
    by_cases hn : name = b.name
    · rw [if_pos hn]
      subst hn
      exact find_replace_self img.bands b hex
    · rw [if_neg hn]
      exact find_replace_other img.bands b name hn
  · rw [if_neg hex]
    by_cases hn : name = b.name
    · rw [if_pos hn]
      subst hn
      show (img.bands ++ [b]).find? _ = some b
      rw [List.find?_append]
      have hnone : img.bands.find? (fun bd => bd.name = b.name) = none := by
        rw [List.find?_eq_none]
        intro bd hbd
        simp only [decide_eq_true_eq]
        intro hc
        exact absurd (List.any_eq_true.mpr ⟨bd, hbd, by simp [hc]⟩) hex
      simp [hnone]
    · rw [if_neg hn]
      show (img.bands ++ [b]).find? _ = _
      rw [List.find?_append]
      have hbn : ¬ b.name = name := fun h => hn h.symm
      have hlast : ([b] : List Band).find? (fun bd => bd.name = name) = none := by
        simp [hbn]
      rw [hlast]
      simp

/-- Helper: the last-staged fold over any accumulator factors through
the fold from `none`. -/
theorem lastStaged_shift (bs : List Band) (name : String) (acc : Option Band) :
    bs.foldl (fun a c => if c.name = name then some c else a) acc =
      (bs.foldl (fun a c => if c.name = name then some c else a) none).or acc := by
  induction bs generalizing acc with
  | nil => simp
  | cons c bs ih =>
    rw [List.foldl_cons, List.foldl_cons,
      ih (if c.name = name then some c else acc),
      ih (if c.name = name then some c else none)]
    by_cases hc : c.name = name
    · rw [if_pos hc, if_pos hc, Option.or_assoc]
      rfl
    · rw [if_neg hc, if_neg hc, Option.or_none]

/-- Helper: cons unfolding of `lastStaged`: later bands win. -/
theorem lastStaged_cons (c : Band) (bs : List Band) (name : String) :
    lastStaged (c :: bs) name =
      (lastStaged bs name).or (if c.name = name then some c else none) := by
  rw [lastStaged, List.foldl_cons, lastStaged_shift]
  rfl

/-- Helper: after batch-adding staged bands, a lookup returns the last
staged band of that name, falling back to the original image. -/
theorem lookup_addBands (img : Image) (bs : List Band) (name : String) :
    (img.addBands bs).lookup name =
      (lastStaged bs name).or (img.lookup name) := by
  induction bs generalizing img with
  | nil => rfl
  | cons b bs ih =>
    show ((img.addBand b).addBands bs).lookup name = _
    rw [ih, lookup_addBand, lastStaged_cons]
    by_cases hn : name = b.name
    · have hb : b.name = name := hn.symm
      rw [if_pos hn, if_pos hb, Option.or_assoc]
      rfl
    · have hb : ¬ b.name = name := fun h => hn h.symm
      rw [if_neg hn, if_neg hb, Option.or_none]

/-- Helper: batch-adding staged bands preserves uniqueness of band
names. -/
theorem names_addBands_nodup (img : Image) (bs : List Band)
    (h : (bandNames img).Nodup) : (bandNames (img.addBands bs)).Nodup := by
  induction bs generalizing img with
  | nil => exact h
  | cons b bs ih =>
    show (bandNames ((img.addBand b).addBands bs)).Nodup
    apply ih
    rw [names_addBand]
    split_ifs with hex
    · exact h
    · have hmem : b.name ∉ bandNames img := by
        simp only [bandNames, List.mem_map, not_exists]
        rintro bd ⟨hbd, hname⟩
        exact absurd (List.any_eq_true.mpr ⟨bd, hbd, by simp [hname]⟩) hex
      simp [List.nodup_append, h, hmem]

/-- Helper: in a list with pairwise distinct names, the bands named
`name` are exactly the one `find?` returns. -/
theorem filter_find_nodup (l : List Band) (name : String) (b : Band)
    (hnd : (l.map Band.name).Nodup)
    (hf : l.find? (fun bd => bd.name = name) = some b) :
    l.filter (fun bd => bd.name = name) = [b] := by
  induction l with
  | nil => simp at hf
  | cons c l ih =>
    by_cases hc : c.name = name
    · rw [List.find?_cons_of_pos _ (by simp [hc])] at hf
      injection hf with hf
      subst hf
      rw [List.filter_cons_of_pos (by simp [hc])]
      have hnil : l.filter (fun bd => bd.name = name) = [] := by
        rw [List.filter_eq_nil_iff]
        intro bd hbd
        simp only [decide_eq_true_eq]
        intro hbdname
        have hmem : c.name ∈ l.map Band.name := by
          rw [hc, ← hbdname]
          exact List.mem_map_of_mem _ hbd
        exact (List.nodup_cons.mp hnd).1 hmem
      rw [hnil]
    · rw [List.find?_cons_of_neg _ (by simp [hc])] at hf
      rw [List.filter_cons_of_neg (by simp [hc])]
      exact ih (List.nodup_cons.mp hnd).2 hf

/-- C4: when staged derived bands (or a staged band and an existing
image band) share a name, the image returned by compose contains exactly
one band of that name, whose pixels are those of the band staged last,
and band names stay unique within the returned image (given they were
unique in the input). -/
theorem C4_last_staged_wins (img : Image) (extra : List CustomIndex)
    (name : String) (b : Band)
    (hnodup : (bandNames img).Nodup)
    (hb : lastStaged (staged_bands img extra) name = some b) :
    (bandNames (calculate_indices img extra)).Nodup ∧
    (calculate_indices img extra).lookup name = some b ∧
    (calculate_indices img extra).bands.filter (fun bd => bd.name = name) =
      [b] := by
  unfold calculate_indices
  by_cases hemp : (staged_bands img extra).isEmpty
  · rw [List.isEmpty_iff] at hemp
    rw [hemp] at hb
    simp [lastStaged] at hb
  · rw [if_neg hemp]
    have hn := names_addBands_nodup img (staged_bands img extra) hnodup
    have hl := lookup_addBands img (staged_bands img extra) name
    rw [hb] at hl
    have hl2 : (img.addBands (staged_bands img extra)).lookup name = some b := by
      rw [hl]
      rfl
    exact ⟨hn, hl2, filter_find_nodup _ name b hn hl2⟩

/-- Helper: adding a band never removes an existing band name. -/
theorem mem_names_addBand (img : Image) (b : Band) (name : String)
    (h : name ∈ bandNames img) : name ∈ bandNames (img.addBand b) := by
  rw [names_addBand]
  split_ifs with hex
  · exact h
  · exact List.mem_append_left _ h

/-- Helper: batch-adding bands never removes an existing band name. -/
theorem mem_names_addBands (img : Image) (bs : List Band) (name : String)
    (h : name ∈ bandNames img) : name ∈ bandNames (img.addBands bs) := by
  induction bs generalizing img with
  | nil => exact h
  | cons c bs ih =>
    show name ∈ bandNames ((img.addBand c).addBands bs)
    exact ih _ (mem_names_addBand img c name h)

/-- Helper: the name of every staged band occurs in the batch-added
image. -/
theorem staged_mem_names_addBands (img : Image) (bs : List Band) (b : Band)
    (h : b ∈ bs) : b.name ∈ bandNames (img.addBands bs) := by
  induction bs generalizing img with
  | nil => simp at h
  | cons c bs ih =>
    show b.name ∈ bandNames ((img.addBand c).addBands bs)
    rcases List.mem_cons.mp h with rfl | hmem
    · apply mem_names_addBands
      rw [names_addBand]
      split_ifs with hex
      · obtain ⟨bd, hbd, hname⟩ := List.any_eq_true.mp hex
        simp only [decide_eq_true_eq] at hname
        rw [← hname]
        exact List.mem_map_of_mem _ hbd
      · exact List.mem_append_right _ (List.mem_singleton.mpr rfl)
    · exact ih _ hmem

/-- Helper: every band of the image after a single add is an original
band or the added one. -/
theorem mem_bands_addBand (img : Image) (c : Band) (bd : Band)
    (h : bd ∈ (img.addBand c).bands) : bd ∈ img.bands ∨ bd = c := by
  unfold Image.addBand at h
  split_ifs at h with hex
  · have h' : bd ∈ img.bands.map (fun bd => if bd.name = c.name then c else bd) := h
    obtain ⟨x, hx, hfx⟩ := List.mem_map.mp h'
    by_cases hxn : x.name = c.name
    · rw [if_pos hxn] at hfx
      exact Or.inr hfx.symm
    · rw [if_neg hxn] at hfx
      exact Or.inl (hfx ▸ hx)
  · have h' : bd ∈ img.bands ++ [c] := h
    rcases List.mem_append.mp h' with hmem | hmem
    · exact Or.inl hmem
    · exact Or.inr (List.mem_singleton.mp hmem)

/-- Helper: every band of the image after a batch add is an original
band or a staged one. -/
theorem mem_bands_addBands (img : Image) (bs : List Band) (bd : Band)
    (h : bd ∈ (img.addBands bs).bands) : bd ∈ img.bands ∨ bd ∈ bs := by
  induction bs generalizing img with
  | nil => exact Or.inl h
  | cons c bs ih =>
    rcases ih (img.addBand c) (by exact h) with hmem | hmem
    · rcases mem_bands_addBand img c bd hmem with hmem' | hmem'
      · exact Or.inl hmem'
      · exact Or.inr (hmem' ▸ List.mem_cons_self c bs)
    · exact Or.inr (List.mem_cons_of_mem c hmem)

/-- Helper: compose preserves every input band name. -/
theorem names_sub_calculate (img : Image) (extra : List CustomIndex)
    (name : String) (h : name ∈ bandNames img) :
    name ∈ bandNames (calculate_indices img extra) := by
  show name ∈ bandNames
    (if (staged_bands img extra).isEmpty then img
     else img.addBands (staged_bands img extra))
  split_ifs with hemp
  · exact h
  · exact mem_names_addBands _ _ _ h

/-- Helper: the name of every staged band occurs in the composed
image. -/
theorem staged_names_calculate (img : Image) (extra : List CustomIndex)
    (b : Band) (h : b ∈ staged_bands img extra) :
    b.name ∈ bandNames (calculate_indices img extra) := by
  show b.name ∈ bandNames
    (if (staged_bands img extra).isEmpty then img
     else img.addBands (staged_bands img extra))
  split_ifs with hemp
  · rw [List.isEmpty_iff] at hemp
    rw [hemp] at h
    simp at h
  · exact staged_mem_names_addBands _ _ _ h

/-- Helper: every band of the composed image is an input band or a
staged band. -/
theorem calculate_bands_sub (img : Image) (extra : List CustomIndex)
    (bd2 : Band) (h : bd2 ∈ (calculate_indices img extra).bands) :
    bd2 ∈ img.bands ∨ bd2 ∈ staged_bands img extra := by
  replace h : bd2 ∈
      (if (staged_bands img extra).isEmpty then img
       else img.addBands (staged_bands img extra)).bands := h
  split_ifs at h with hemp
  · exact Or.inl h
  · exact mem_bands_addBands _ _ _ h

/-- C1: compose (calculate_indices) is total by construction — it is a
plain function into Image, never an error — and isolates per-index
failures: every input band name survives into the returned image, every
catalog or custom index whose evaluation succeeds has its derived band
staged and a band of its name present in the returned image, and every
band of the returned image is an input band or a staged derived band
(so a failing index contributes nothing and omits only itself). -/
theorem C1_compose_isolation (img : Image) (extra : List CustomIndex) :
    (∀ bd ∈ img.bands,
      ∃ bd2 ∈ (calculate_indices img extra).bands, bd2.name = bd.name) ∧
    (∀ nc ∈ INDICES_CONFIG, ∀ b : Band,
      compute_index img nc.1 nc.2 = .ok (some b) →
      b ∈ staged_bands img extra ∧
        ∃ bd2 ∈ (calculate_indices img extra).bands, bd2.name = b.name) ∧
    (∀ c ∈ extra, ∀ b : Band,
      compute_custom_index img c = .ok (some b) →
      b ∈ staged_bands img extra ∧
        ∃ bd2 ∈ (calculate_indices img extra).bands, bd2.name = b.name) ∧
    (∀ bd2 ∈ (calculate_indices img extra).bands,
      bd2.name ∈ bandNames img ∨ bd2 ∈ staged_bands img extra) := by
  have hpresent : ∀ name : String,
      name ∈ bandNames (calculate_indices img extra) →
      ∃ bd2 ∈ (calculate_indices img extra).bands, bd2.name = name := by
    intro name h
    simpa [bandNames, List.mem_map] using h
  refine ⟨?_, ?_, ?_, ?_⟩
  · intro bd hbd
    exact hpresent bd.name
      (names_sub_calculate img extra bd.name (List.mem_map_of_mem _ hbd))
  · intro nc hnc b heval
    have hstaged : b ∈ staged_bands img extra := by
      apply List.mem_append_left
      exact List.mem_filterMap.mpr ⟨nc, hnc, by rw [heval]⟩
    exact ⟨hstaged,
      hpresent b.name (staged_names_calculate img extra b hstaged)⟩
  · intro c hc b heval
    have hstaged : b ∈ staged_bands img extra := by
      apply List.mem_append_right
      exact List.mem_filterMap.mpr ⟨c, hc, by rw [heval]⟩
    exact ⟨hstaged,
      hpresent b.name (staged_names_calculate img extra b hstaged)⟩
  · intro bd2 h
    rcases calculate_bands_sub img extra bd2 h with hmem | hmem
    · exact Or.inl (List.mem_map_of_mem _ hmem)
    · exact Or.inr hmem

/-- A concrete custom difference index named "D" over band "X". -/
def customD1 : CustomIndex := ⟨some "D", some "difference", some "X", some "X", none, []⟩

/-- Witness for C1 at concrete inputs: input-band preservation, a
successful catalog index (NDVI) and a successful custom index both
present, and the completeness direction. -/
theorem C1_compose_isolation_witness :
    ((⟨"X", nonePix⟩ : Band) ∈ wNoneImg.bands ∧
      ∃ bd2 ∈ (calculate_indices wNoneImg []).bands, bd2.name = "X") ∧
    (("NDVI", (⟨some "normalized_diff", some ["B8", "B4"]⟩ : IndexCfg)) ∈
        INDICES_CONFIG ∧
      compute_index witnessImage "NDVI"
          ⟨some "normalized_diff", some ["B8", "B4"]⟩ =
        .ok (some (Pix.rename (ndPix (constPix 5000) (constPix 1000)) "NDVI")) ∧
      (Pix.rename (ndPix (constPix 5000) (constPix 1000)) "NDVI" ∈
          staged_bands witnessImage [] ∧
        ∃ bd2 ∈ (calculate_indices witnessImage []).bands, bd2.name = "NDVI")) ∧
    (customD1 ∈ [customD1] ∧
      compute_custom_index wNoneImg customD1 =
        .ok (some (Pix.rename (Pix.subtract nonePix nonePix) "D")) ∧
      (Pix.rename (Pix.subtract nonePix nonePix) "D" ∈
          staged_bands wNoneImg [customD1] ∧
        ∃ bd2 ∈ (calculate_indices wNoneImg [customD1]).bands, bd2.name = "D")) ∧
    ((⟨"X", nonePix⟩ : Band) ∈ (calculate_indices wNoneImg []).bands ∧
      ((⟨"X", nonePix⟩ : Band).name ∈ bandNames wNoneImg ∨
        (⟨"X", nonePix⟩ : Band) ∈ staged_bands wNoneImg [])) :=
  ⟨⟨List.Mem.head _, (C1_compose_isolation wNoneImg []).1 ⟨"X", nonePix⟩ (List.Mem.head _)⟩,
   ⟨by decide, rfl,
     (C1_compose_isolation witnessImage []).2.1
       ("NDVI", ⟨some "normalized_diff", some ["B8", "B4"]⟩) (by decide)
       (Pix.rename (ndPix (constPix 5000) (constPix 1000)) "NDVI") rfl⟩,
   ⟨List.Mem.head _, rfl,
     (C1_compose_isolation wNoneImg [customD1]).2.2.1 customD1 (List.Mem.head _) _ rfl⟩,
   ⟨List.Mem.head _, (C1_compose_isolation wNoneImg []).2.2.2 ⟨"X", nonePix⟩
     (List.Mem.head _)⟩⟩

/-- A concrete custom ratio index, also named "D", over band "X". -/
def customD2 : CustomIndex := ⟨some "D", some "ratio", some "X", some "X", none, []⟩

/-- Witness for C4: two staged custom bands named "D"; the composed
image keeps unique names, and its "D" band is the one staged last. -/
theorem C4_last_staged_wins_witness :
    (bandNames wNoneImg).Nodup ∧
    lastStaged (staged_bands wNoneImg [customD1, customD2]) "D" =
      some (Pix.rename (Pix.divide nonePix nonePix) "D") ∧
    ((bandNames (calculate_indices wNoneImg [customD1, customD2])).Nodup ∧
      (calculate_indices wNoneImg [customD1, customD2]).lookup "D" =
        some (Pix.rename (Pix.divide nonePix nonePix) "D") ∧
      (calculate_indices wNoneImg [customD1, customD2]).bands.filter
          (fun bd => bd.name = "D") =
        [Pix.rename (Pix.divide nonePix nonePix) "D"]) :=
  ⟨by decide, rfl,
    C4_last_staged_wins wNoneImg [customD1, customD2] "D"
      (Pix.rename (Pix.divide nonePix nonePix) "D") (by decide) rfl⟩
